import Mathlib

/-!
# stsh: job control of the Stanford shell

A shallow embedding of `stsh.cc`.  The shell is a state machine over

* the job table (`STSHJobList`, the one piece of global data),
* the list of system calls it has issued so far (`Shell.trace`),
* the lines it has written to `cout` and `cerr`,
* the kernel's queue of child status changes that `waitpid` has not yet reaped,
* its table of open file descriptors.

The operating system is an oracle (`Env`): it answers `fork`, `tcsetpgrp`,
`setpgid`, `pipe` and `open`.  Signal handlers run only at the `sigsuspend`
suspension points of the main flow; each return of `sigsuspend` is one
`Delivery`.  An `STSHException` is the outcome `Outcome.threw`.

Jobs are held by value in the table and re-resolved by job number.  Where the
source goes on reading through a C++ reference whose target the table has
destroyed in the meantime, the embedding does not invent a value: the outcome is
`Outcome.undefined`.  The builtin `fg` is not embedded: its wait loop is left only
through such a read (see `stsh.cc`, lines 54 to 57).
-/

set_option autoImplicit false
set_option linter.dupNamespace false

namespace Stsh

/-! ## Data model -/

/-- Modelled from the spec: the run state of a Process (stsh-process.h is not
among the sources): one of Running, Stopped, Terminated. -/
inductive STSHProcessState
  | kRunning
  | kStopped
  | kTerminated
deriving DecidableEq, Repr

/-- Modelled from the spec: the state of a Job (stsh-job.h is not among the
sources): one of Foreground, Background, Stopped. -/
inductive STSHJobState
  | kForeground
  | kBackground
  | kStopped
deriving DecidableEq, Repr

/-- One stage of a pipeline: the program name and its argument list (the parser's
`command` value). -/
structure command where
  command : String
  tokens : List String
deriving DecidableEq, Repr

/-- The parser's output: the ordered stages, the two optional redirections (the
empty string when absent) and the background flag. -/
structure pipeline where
  commands : List command
  input : String
  output : String
  background : Bool
deriving DecidableEq, Repr

/-- Modelled from the spec: a Process (stsh-process.h is not among the sources):
the process identifier, the command it was launched with, a mutable run state. -/
structure STSHProcess where
  pid : Int
  cmd : command
  state : STSHProcessState
deriving DecidableEq, Repr

/-- Modelled from the spec: the constructor `STSHProcess(pid, command)` used by
`createJob`; a freshly forked process is Running. -/
def STSHProcess.new (pid : Int) (cmd : command) : STSHProcess :=
  { pid := pid, cmd := cmd, state := .kRunning }

/-- Modelled from the spec: a Job (stsh-job.h is not among the sources): job
number, job state and the ordered collection of its Processes (insertion order is
pipeline order). -/
structure STSHJob where
  num : Nat
  state : STSHJobState
  processes : List STSHProcess
deriving DecidableEq, Repr

/-- Modelled from the spec: the Job Table (stsh-job-list.h is not among the
sources); it owns all live Jobs. -/
structure STSHJobList where
  jobs : List STSHJob
deriving DecidableEq, Repr

/-! ## Job and Job Table operations (modelled from the spec) -/

/-- Modelled from the spec: `STSHJob::containsProcess`, lookup by member PID. -/
def STSHJob.containsProcess (job : STSHJob) (pid : Int) : Bool :=
  job.processes.any (fun q => q.pid == pid)

/-- Modelled from the spec: `STSHJob::getProcess`, the member with the given PID. -/
def STSHJob.getProcess (job : STSHJob) (pid : Int) : Option STSHProcess :=
  job.processes.find? (fun q => q.pid == pid)

/-- Modelled from the spec: `STSHJob::getGroupID`; the process-group identifier of
a job equals the identifier of its first Process (0 for a job without processes). -/
def STSHJob.getGroupID (job : STSHJob) : Int :=
  match job.processes with
  | [] => 0
  | q :: _ => q.pid

/-- Modelled from the spec: `STSHProcess::setState` through the reference returned
by `getProcess`: the run state of the member with the given PID is overwritten. -/
def setStateOf (pid : Int) (st : STSHProcessState) : List STSHProcess → List STSHProcess
  | [] => []
  | q :: qs => if q.pid == pid then { q with state := st } :: qs else q :: setStateOf pid st qs

/-- Modelled from the spec: `STSHJobList::containsJob`, test by job number. -/
def STSHJobList.containsJob (jl : STSHJobList) (n : Nat) : Bool :=
  jl.jobs.any (fun j => j.num == n)

/-- Modelled from the spec: `STSHJobList::getJob`, fetch by job number. -/
def STSHJobList.getJob (jl : STSHJobList) (n : Nat) : Option STSHJob :=
  jl.jobs.find? (fun j => j.num == n)

/-- Modelled from the spec: `STSHJobList::hasForegroundJob`. -/
def STSHJobList.hasForegroundJob (jl : STSHJobList) : Bool :=
  jl.jobs.any (fun j => j.state == .kForeground)

/-- Modelled from the spec: `STSHJobList::getForegroundJob`. -/
def STSHJobList.getForegroundJob (jl : STSHJobList) : Option STSHJob :=
  jl.jobs.find? (fun j => j.state == .kForeground)

/-- Modelled from the spec: `STSHJobList::containsProcess`, test by member PID. -/
def STSHJobList.containsProcess (jl : STSHJobList) (pid : Int) : Bool :=
  jl.jobs.any (fun j => j.containsProcess pid)

/-- Modelled from the spec: `STSHJobList::getJobWithProcess`, fetch by member PID. -/
def STSHJobList.getJobWithProcess (jl : STSHJobList) (pid : Int) : Option STSHJob :=
  jl.jobs.find? (fun j => j.containsProcess pid)

/-- Modelled from the spec: a write through a reference to the job numbered `n`
(jobs are re-resolved by their stable job number): that job is replaced by `f job`. -/
def STSHJobList.updateJob (jl : STSHJobList) (n : Nat) (f : STSHJob → STSHJob) : STSHJobList :=
  { jobs := jl.jobs.map (fun j => if j.num == n then f j else j) }

/-- Modelled from the spec: removal of the job numbered `n` from the Job Table. -/
def STSHJobList.removeJob (jl : STSHJobList) (n : Nat) : STSHJobList :=
  { jobs := jl.jobs.filter (fun j => j.num != n) }

/-- Modelled from the spec: job numbers are small positive integers, unique among
the live jobs and reused after removal: the next number is the least positive one
not in use. -/
def STSHJobList.nextJobNum (jl : STSHJobList) : Nat :=
  match (List.range jl.jobs.length).find? (fun k => !jl.containsJob (k + 1)) with
  | some k => k + 1
  | none => jl.jobs.length + 1

/-- Modelled from the spec: `STSHJobList::addJob`, add a new job in a given initial
state; the result carries the number of the new job (the returned reference). -/
def STSHJobList.addJob (jl : STSHJobList) (st : STSHJobState) : STSHJobList × Nat :=
  ({ jobs := jl.jobs ++ [{ num := jl.nextJobNum, state := st, processes := [] }] }, jl.nextJobNum)

/-- Modelled from the spec: `STSHJob::addProcess` through the reference returned by
`addJob`: the Process is appended to the job. -/
def STSHJobList.addProcess (jl : STSHJobList) (n : Nat) (q : STSHProcess) : STSHJobList :=
  jl.updateJob n (fun j => { j with processes := j.processes ++ [q] })

/-- Modelled from the spec: `STSHJob::setState` through a job reference. -/
def STSHJobList.setState (jl : STSHJobList) (n : Nat) (st : STSHJobState) : STSHJobList :=
  jl.updateJob n (fun j => { j with state := st })

/-- Modelled from the spec: `STSHJobList::synchronize`.  Terminated Processes are
removed from their Job; the Job is removed when every member has reached
Terminated; otherwise its aggregate state is recomputed: Foreground/Background if
any member is Running (a Foreground job stays Foreground, any other becomes
Background), Stopped if all members are Stopped. -/
def STSHJobList.synchronize (jl : STSHJobList) (n : Nat) : STSHJobList :=
  match jl.getJob n with
  | none => jl
  | some job =>
    let live := job.processes.filter (fun q => q.state != .kTerminated)
    if live.isEmpty then jl.removeJob n
    else if live.any (fun q => q.state == .kRunning) then
      jl.updateJob n (fun j =>
        { j with processes := live,
                 state := if j.state == .kStopped then .kBackground else j.state })
    else
      jl.updateJob n (fun j => { j with processes := live, state := .kStopped })

/-! ## The operating system as seen by the shell -/

/-- The signals the shell sends or handles. -/
inductive Signal
  | SIGKILL
  | SIGSTOP
  | SIGCONT
  | SIGINT
  | SIGTSTP
deriving DecidableEq, Repr

/-- Result of `tcsetpgrp`: 0, or -1 with `errno` set. -/
inductive TcResult
  | ok
  | fail (errno : Nat)
deriving DecidableEq, Repr

/-- The errno value "not a terminal". -/
def ENOTTY : Nat := 25

def STDIN_FILENO : Nat := 0

def STDOUT_FILENO : Nat := 1

/-- The `how` argument of `sigprocmask`; the mask is always the set holding SIGCHLD. -/
inductive MaskHow
  | SIG_BLOCK
  | SIG_UNBLOCK
deriving DecidableEq, Repr

/-- A system call issued by the shell process, with its arguments (and, for
`fork`, `pipe` and `tcsetpgrp`, what the kernel answered). -/
inductive Syscall
  | kill (pid : Int) (sig : Signal)
  | tcsetpgrp (fd : Nat) (pgrp : Int) (res : TcResult)
  | fork (ret : Int)
  | setpgid (pid : Int) (pgid : Int)
  | pipe (rd : Nat) (wr : Nat)
  | close (fd : Nat)
  | sigprocmask (how : MaskHow)
  | sigsuspend
  | waitpid (ret : Int)
deriving DecidableEq, Repr

/-- Whom `kill(pid, sig)` addresses (POSIX kill(2)): a positive `pid` names that
single process, 0 the caller's own process group, -1 every process the caller may
signal, and any other negative value the process group `-pid`. -/
inductive KillTarget
  | process (pid : Int)
  | callerGroup
  | everyone
  | group (pgid : Int)
deriving DecidableEq, Repr

/-- Decoding of the first argument of `kill`. -/
def killTarget (pid : Int) : KillTarget :=
  if 0 < pid then .process pid
  else if pid = 0 then .callerGroup
  else if pid = -1 then .everyone
  else .group (-pid)

/-- The status reported by `waitpid` for one child. -/
inductive WaitStatus
  | exited (code : Nat)
  | signaled (sig : Nat)
  | stopped (sig : Nat)
  | continued
deriving DecidableEq, Repr

def WIFEXITED : WaitStatus → Bool
  | .exited _ => true
  | _ => false

def WIFSIGNALED : WaitStatus → Bool
  | .signaled _ => true
  | _ => false

def WIFSTOPPED : WaitStatus → Bool
  | .stopped _ => true
  | _ => false

def WIFCONTINUED : WaitStatus → Bool
  | .continued => true
  | _ => false

/-- The two ways `redirect` opens a file: `O_RDONLY` for the input file,
`O_CREAT|O_TRUNC|O_WRONLY` with mode 0644 for the output file. -/
inductive OpenFlags
  | O_RDONLY
  | O_CREAT_TRUNC_WRONLY
deriving DecidableEq, Repr

/-- What an open file descriptor refers to: something the shell itself was started
with (named by the descriptor it had then), an end of the k-th pipe of the
pipeline, or a file opened by `redirect`. -/
inductive FileDesc
  | inherited (fd : Nat)
  | pipeRead (k : Nat)
  | pipeWrite (k : Nat)
  | file (path : String) (flags : OpenFlags)
deriving DecidableEq, Repr

/-- The descriptor table of a process: the open descriptors with what they refer
to; a descriptor occurs at most once. -/
abbrev FdTable := List (Nat × FileDesc)

/-- What descriptor `fd` refers to, `none` when it is closed. -/
def FdTable.get : FdTable → Nat → Option FileDesc
  | [], _ => none
  | e :: t, fd => if e.1 == fd then some e.2 else FdTable.get t fd

/-- The call `close(fd)`. -/
def FdTable.close (t : FdTable) (fd : Nat) : FdTable :=
  t.filter (fun e => e.1 != fd)

/-- Descriptor `fd` is made to refer to `d` (whatever it referred to is closed). -/
def FdTable.set (t : FdTable) (fd : Nat) (d : FileDesc) : FdTable :=
  (fd, d) :: t.close fd

/-- The call `dup2(oldfd, newfd)`: nothing when `oldfd` is closed or equal to
`newfd`; otherwise `newfd` is made to refer to what `oldfd` refers to. -/
def FdTable.dup2 (t : FdTable) (oldfd newfd : Nat) : FdTable :=
  match t.get oldfd with
  | none => t
  | some d => if oldfd == newfd then t else t.set newfd d

/-- The `Pipe` struct: `fd[0]` is the read end, `fd[1]` the write end. -/
structure Pipe where
  rd : Nat
  wr : Nat
deriving DecidableEq, Repr

/-- The answers of the operating system.  The first argument of `tcsetpgrp`, `fork`
and `setpgid` is the number of system calls the shell has issued before, so the
kernel may answer the same call differently at different times.  `setpgid` answers
`none` on success and the errno on failure; `pipe k` is the descriptor pair handed
out by the k-th `pipe` call of one `createPipes`; `strerror` is the text for an
errno. -/
structure Env where
  getpid : Int
  tcsetpgrp : Nat → Nat → Int → TcResult
  fork : Nat → Int
  setpgid : Nat → Int → Int → Option Nat
  pipe : Nat → Pipe
  strerror : Nat → String

/-- Result of `open`: the new descriptor, or -1 with `errno` set. -/
inductive OpenResult
  | ok (fd : Nat)
  | fail (errno : Nat)
deriving DecidableEq, Repr

/-- The answers of the operating system to a forked child: its own pid, the
result of `open` on a path, of `setpgid(0, pgid)` (`none` on success, the errno on
failure), whether `execvp` can run a program, and the text `strerror` gives. -/
structure ChildEnv where
  getpid : Int
  sys_open : String → OpenFlags → OpenResult
  setpgid : Int → Option Nat
  execvp : String → Bool
  strerror : Nat → String

/-- The state of the shell process between two statements of the main flow. -/
structure Shell where
  joblist : STSHJobList
  trace : List Syscall
  out : List String
  err : List String
  pending : List (Int × WaitStatus)
  fds : FdTable
deriving DecidableEq, Repr

/-- How a function of the main flow ends: it returns, it throws an `STSHException`
with the given `what()` text, it stays suspended in `sigsuspend` for ever, or it
reads through a reference whose target has been destroyed, from where on C++ leaves
its behaviour undefined. -/
inductive Outcome
  | returned
  | threw (what : String)
  | blocked
  | undefined
deriving DecidableEq, Repr

/-- Records a system call. -/
def Shell.log (s : Shell) (c : Syscall) : Shell :=
  { s with trace := s.trace ++ [c] }

/-! ## stsh.cc -/

/-- The test `tcsetpgrp(...) < 0 && errno != ENOTTY` of `giveTermCtrl`. -/
def TcResult.fatal : TcResult → Bool
  | .ok => false
  | .fail errno => errno != ENOTTY

/-- The helper `giveTermCtrl(gpid)` of stsh.cc: `tcsetpgrp` on standard output,
then on standard input; a failure other than ENOTTY throws, and the second call is
not reached when the first one throws. -/
def giveTermCtrl (env : Env) (s : Shell) (gpid : Int) : Shell × Outcome :=
  let r1 := env.tcsetpgrp s.trace.length STDOUT_FILENO gpid
  let s1 := s.log (.tcsetpgrp STDOUT_FILENO gpid r1)
  if r1.fatal then (s1, .threw "Error: Control Transfer Failed")
  else
    let r2 := env.tcsetpgrp s1.trace.length STDIN_FILENO gpid
    let s2 := s1.log (.tcsetpgrp STDIN_FILENO gpid r2)
    if r2.fatal then (s2, .threw "Error: Control Transfer Failed")
    else (s2, .returned)

/-- The function `updateJobList(jobList, pid, state)` of stsh.cc: nothing when no
job holds `pid`; otherwise the state of that process is set and its job is
synchronized. -/
def updateJobList (jl : STSHJobList) (pid : Int) (state : STSHProcessState) : STSHJobList :=
  if !jl.containsProcess pid then jl
  else
    match jl.getJobWithProcess pid with
    | none => jl
    | some job =>
      (jl.updateJob job.num
        (fun j => { j with processes := setStateOf pid state j.processes })).synchronize job.num

/-- Modelled from the spec: a lookup by a job number or PID that the table does not
hold signals "not found" (the text of that exception is not among the sources). -/
def notFound : String := "not found"

/-- The text thrown by `bg` (and, with "fg", by `fg`) for a job number that is
refused. -/
def noSuchJob (builtin : String) (jobNumber : Nat) : String :=
  builtin ++ " " ++ toString jobNumber ++ ": No such job."

/-- The text thrown by `slay`, `halt` and `cont`. -/
def noProcess (pid : Int) : String :=
  "No process with pid " ++ toString pid

/-- The builtin `bg(jobNumber)` of stsh.cc. -/
def bg (env : Env) (s : Shell) (jobNumber : Nat) : Shell × Outcome :=
  if s.joblist.containsJob jobNumber && s.joblist.hasForegroundJob then
    match s.joblist.getJob jobNumber with
    | none => (s, .threw notFound)
    | some job =>
      let gpid := job.getGroupID
      let s1 := { s with joblist := updateJobList s.joblist gpid .kRunning }
      giveTermCtrl env s1 env.getpid
  else (s, .threw (noSuchJob "bg" jobNumber))

/-- The builtin `slay(pid)` of stsh.cc. -/
def slay (s : Shell) (pid : Int) : Shell × Outcome :=
  if s.joblist.containsProcess pid then (s.log (.kill pid .SIGKILL), .returned)
  else (s, .threw (noProcess pid))

/-- The builtin `halt(pid)` of stsh.cc. -/
def halt (s : Shell) (pid : Int) : Shell × Outcome :=
  if s.joblist.containsProcess pid then (s.log (.kill pid .SIGSTOP), .returned)
  else (s, .threw (noProcess pid))

/-- The builtin `cont(pid)` of stsh.cc. -/
def cont (s : Shell) (pid : Int) : Shell × Outcome :=
  if s.joblist.containsProcess pid then (s.log (.kill pid .SIGCONT), .returned)
  else (s, .threw (noProcess pid))

/-- The handler `sigchild_handler` of stsh.cc: one `waitpid(-1, &status,
WNOHANG|WUNTRACED|WCONTINUED)`, then the four status tests in turn.  With nothing
to reap `waitpid` answers 0 and `status` is left unset; no job holds pid 0, so the
table is left as it is. -/
def sigchild_handler (s : Shell) : Shell :=
  match s.pending with
  | [] => s.log (.waitpid 0)
  | (child_pid, status) :: rest =>
    let s0 := { s.log (.waitpid child_pid) with pending := rest }
    let s1 := if WIFEXITED status then
      { s0 with joblist := updateJobList s0.joblist child_pid .kTerminated } else s0
    let s2 := if WIFSIGNALED status then
      { s1 with joblist := updateJobList s1.joblist child_pid .kTerminated } else s1
    let s3 := if WIFSTOPPED status then
      { s2 with joblist := updateJobList s2.joblist child_pid .kStopped } else s2
    if WIFCONTINUED status then
      { s3 with joblist := updateJobList s3.joblist child_pid .kRunning } else s3

/-- The handler `sigint_handler` of stsh.cc: with a foreground job,
`kill(job.getGroupID(), SIGINT)` and an end of line on `cout`. -/
def sigint_handler (s : Shell) : Shell :=
  if s.joblist.hasForegroundJob then
    match s.joblist.getForegroundJob with
    | none => s
    | some job =>
      let pid := job.getGroupID
      { s.log (.kill pid .SIGINT) with out := s.out ++ [""] }
  else s

/-- The handler `sigtstp_handler` of stsh.cc: with a foreground job,
`kill(job.getGroupID(), SIGTSTP)` and an end of line on `cout`. -/
def sigtstp_handler (s : Shell) : Shell :=
  if s.joblist.hasForegroundJob then
    match s.joblist.getForegroundJob with
    | none => s
    | some job =>
      let pid := job.getGroupID
      { s.log (.kill pid .SIGTSTP) with out := s.out ++ [""] }
  else s

/-- One return of `sigsuspend`: a handler has run.  For SIGCHLD, `arrivals` are the
child status changes that became pending since the previous delivery (several
changes may stand behind one SIGCHLD). -/
inductive Delivery
  | sigchld (arrivals : List (Int × WaitStatus))
  | sigint
  | sigtstp
deriving DecidableEq, Repr

/-- The call `sigsuspend(&prev)` returning after the given delivery. -/
def deliver (s : Shell) : Delivery → Shell
  | .sigchld arrivals => sigchild_handler { s.log .sigsuspend with pending := s.pending ++ arrivals }
  | .sigint => sigint_handler (s.log .sigsuspend)
  | .sigtstp => sigtstp_handler (s.log .sigsuspend)

/-- How the loop `while (cond) sigsuspend(&prev);` ends: the condition was read
false, the deliveries ran out while it still held (the shell stays suspended), or
the condition had to be read through a reference whose target is gone. -/
inductive WaitEnd
  | left
  | suspended
  | dangling
deriving DecidableEq, Repr

/-- The loop `while (cond) sigsuspend(&prev);`; `cond` answers `none` when the
reference it reads through no longer has a target. -/
def waitWhile (cond : Shell → Option Bool) : List Delivery → Shell → Shell × WaitEnd
  | [], s =>
    match cond s with
    | none => (s, .dangling)
    | some true => (s, .suspended)
    | some false => (s, .left)
  | d :: ds, s =>
    match cond s with
    | none => (s, .dangling)
    | some true => waitWhile cond ds (deliver s d)
    | some false => (s, .left)

/-- What `job.getState() == kForeground` reads in the wait loop of `createJob`
through the reference `job` returned by `addJob`.  Once a synchronization has
removed the job from the table the reference has no target any more (the source
reads it all the same): the answer is `none`. -/
def isForeground (jl : STSHJobList) (jobNumber : Nat) : Option Bool :=
  match jl.getJob jobNumber with
  | none => none
  | some job => some (job.state == .kForeground)

/-- The function `createPipes(numOfPipes)` of stsh.cc: `numOfPipes` calls of
`pipe`, collected in order. -/
def createPipes (env : Env) : Nat → Shell → List Pipe × Shell
  | 0, s => ([], s)
  | k + 1, s =>
    let r := createPipes env k s
    let p := env.pipe k
    (r.1 ++ [p],
      { r.2.log (.pipe p.rd p.wr) with
        fds := (r.2.fds.set p.rd (.pipeRead k)).set p.wr (.pipeWrite k) })

/-- The loop `for (auto p : pipes) {close(p.fd[0]); close(p.fd[1]);}` in the
parent. -/
def closePipes : List Pipe → Shell → Shell
  | [], s => s
  | p :: ps, s =>
    closePipes ps
      { (s.log (.close p.rd)).log (.close p.wr) with fds := (s.fds.close p.rd).close p.wr }

/-- The parent side of the loop of `createJob` over the stages from index `i` on:
`fork`, the record of the first child, `setpgid(pid, first_child)` (the `strerror`
text goes to `cerr` when it fails) and `job.addProcess`.  The result carries the
final values of `first_child` and `pid`. -/
def forkStages (env : Env) (jobNum : Nat) :
    List command → Nat → Int → Int → Shell → Shell × Int × Int
  | [], _, first_child, pid, s => (s, first_child, pid)
  | c :: cs, i, first_child, _, s =>
    let pid := env.fork s.trace.length
    let s1 := s.log (.fork pid)
    let first_child := if i == 0 then pid else first_child
    let s2 := match env.setpgid s1.trace.length pid first_child with
      | none => s1.log (.setpgid pid first_child)
      | some errno =>
        { s1.log (.setpgid pid first_child) with err := s1.err ++ [env.strerror errno] }
    let s3 := { s2 with joblist := s2.joblist.addProcess jobNum (STSHProcess.new pid c) }
    forkStages env jobNum cs (i + 1) first_child pid s3

/-- The values `createJob` holds once every stage is forked and the pipes are
closed in the parent: the shell, the number of the new job, the variables
`first_child`, `pid` and `pipes`, and the descriptor table the shell had from
`createPipes` to the close loop (the parent does not touch it in between, so it is
the table every forked child starts with). -/
structure Spawned where
  shell : Shell
  jobNum : Nat
  first_child : Int
  pid : Int
  pipes : List Pipe
  forkFds : FdTable
deriving DecidableEq, Repr

/-- The parent side of `createJob(p)` of stsh.cc up to and including the close of
all pipes in the parent.  `first_child` and `pid` are not initialised by the
source; `handleBuiltin` has read `p.commands[0]` before, so there is a first stage
that sets both. -/
def createJobSpawn (env : Env) (s : Shell) (p : pipeline) : Spawned :=
  let added := s.joblist.addJob .kBackground
  let jobNum := added.2
  let s1 := { s with joblist := added.1 }
  let s2 := if !p.background then
      ({ s1 with joblist := s1.joblist.setState jobNum .kForeground }).log (.sigprocmask .SIG_BLOCK)
    else s1
  let pipe_len := p.commands.length
  let made := createPipes env (pipe_len - 1) s2
  let forked := forkStages env jobNum p.commands 0 0 0 made.2
  { shell := closePipes made.1 forked.1, jobNum := jobNum,
    first_child := forked.2.1, pid := forked.2.2,
    pipes := made.1, forkFds := made.2.fds }

/-- The line `[<jobnumber>] <pid1> <pid2> ...` printed for a background job. -/
def backgroundLine (jobNum : Nat) (procs : List STSHProcess) : String :=
  procs.foldl (fun acc q => acc ++ " " ++ toString q.pid) ("[" ++ toString jobNum ++ "]")

/-- The parent side of `createJob(p)` of stsh.cc; `ds` are the deliveries that
arrive while it is suspended. -/
def createJob (env : Env) (s : Shell) (p : pipeline) (ds : List Delivery) : Shell × Outcome :=
  let sp := createJobSpawn env s p
  if !p.background then
    match giveTermCtrl env sp.shell sp.pid with
    | (s1, .returned) =>
      match waitWhile (fun t => isForeground t.joblist sp.jobNum) ds s1 with
      | (s2, .suspended) => (s2, .blocked)
      | (s2, .dangling) => (s2, .undefined)
      | (s2, .left) =>
        match giveTermCtrl env s2 env.getpid with
        | (s3, .returned) => (s3.log (.sigprocmask .SIG_UNBLOCK), .returned)
        | r => r
    | r => r
  else
    let procs := match sp.shell.joblist.getJob sp.jobNum with
      | none => []
      | some job => job.processes
    ({ sp.shell with out := sp.shell.out ++ [backgroundLine sp.jobNum procs] }, .returned)

/-! ## The child side of `createJob` -/

/-- How a forked child ends: `exit(0)` inside `redirect` after a failed `open`,
the process image replaced by `execvp(argv[0], argv)`, or `exit(0)` after
"Command not found.". -/
inductive ChildEnd
  | exitInRedirect
  | exec (argv : List String)
  | commandNotFound
deriving DecidableEq, Repr

/-- A forked child while it runs the code of `createJob`: its descriptor table
(a copy of the shell's at the time of `fork`), what it wrote to `cout` and `cerr`,
and the process group it asked to join. -/
structure Child where
  fds : FdTable
  out : List String
  err : List String
  pgid : Option Int
deriving DecidableEq, Repr

/-- The element `pipes[i]`; every use in `createJob` has `i` in range. -/
def pipeAt (pipes : List Pipe) (i : Nat) : Pipe :=
  pipes.getD i { rd := 0, wr := 0 }

/-- The loop `for (auto p : pipes) {close(p.fd[0]); close(p.fd[1]);}` in a child. -/
def closeAll : List Pipe → FdTable → FdTable
  | [], t => t
  | p :: ps, t => closeAll ps ((t.close p.rd).close p.wr)

/-- The helper `redirect(p, inputFile_exist, outputFile_exist)` of stsh.cc, run in
a child.  The flag of the result is `true` when `exit(0)` was called. -/
def redirect (os : ChildEnv) (p : pipeline) (inputFile_exist outputFile_exist : Bool)
    (c : Child) : Child × Bool :=
  let r : Child × Bool :=
    if inputFile_exist then
      match os.sys_open p.input .O_RDONLY with
      | .fail errno =>
        ({ c with out := c.out ++
            [if errno == 2 then "Could not open \"" ++ p.input ++ "\"." else os.strerror errno] },
          true)
      | .ok fd_in =>
        ({ c with fds := (((c.fds.set fd_in (.file p.input .O_RDONLY)).dup2 fd_in
            STDIN_FILENO).close fd_in) }, false)
    else (c, false)
  if r.2 then r
  else if outputFile_exist then
    match os.sys_open p.output .O_CREAT_TRUNC_WRONLY with
    | .fail errno => ({ r.1 with out := r.1.out ++ [os.strerror errno] }, true)
    | .ok fd_out =>
      ({ r.1 with fds := (((r.1.fds.set fd_out (.file p.output .O_CREAT_TRUNC_WRONLY)).dup2
          fd_out STDOUT_FILENO).close fd_out) }, false)
  else r

/-- The wiring of standard input and output in the child of stage `i` (the body of
`if (pid == 0)` in `createJob` down to the last `close`).  The flag of the result is
`true` when `redirect` called `exit(0)`. -/
def wireChild (os : ChildEnv) (p : pipeline) (pipes : List Pipe) (i : Nat) (c : Child) :
    Child × Bool :=
  let pipe_len := p.commands.length
  if i == 0 then
    if pipe_len > 1 then
      let c1 := { c with fds := c.fds.dup2 (pipeAt pipes i).wr STDOUT_FILENO }
      let r := redirect os p (!(p.input == "")) false c1
      if r.2 then r else ({ r.1 with fds := closeAll pipes r.1.fds }, false)
    else
      let r := redirect os p (!(p.input == "")) (!(p.output == "")) c
      if r.2 then r else ({ r.1 with fds := closeAll pipes r.1.fds }, false)
  else if i == pipe_len - 1 then
    let c1 := { c with fds := c.fds.dup2 (pipeAt pipes (i - 1)).rd STDIN_FILENO }
    let r := redirect os p false (!(p.output == "")) c1
    if r.2 then r else ({ r.1 with fds := closeAll pipes r.1.fds }, false)
  else
    let c1 := { c with fds := c.fds.dup2 (pipeAt pipes (i - 1)).rd STDIN_FILENO }
    let c2 := { c1 with fds := c1.fds.dup2 (pipeAt pipes i).wr STDOUT_FILENO }
    ({ c2 with fds := closeAll pipes c2.fds }, false)

/-- The child side of `createJob(p)` of stsh.cc for stage `i`: the body of
`if (pid == 0)`.  `first_child` is the value the variable had in the parent when
stage `i` was forked and `fds` the shell's descriptor table at that time. -/
def createJobChild (os : ChildEnv) (p : pipeline) (pipes : List Pipe) (i : Nat)
    (first_child : Int) (fds : FdTable) : Child × ChildEnd :=
  let first_child := if i == 0 then os.getpid else first_child
  let w := wireChild os p pipes i { fds := fds, out := [], err := [], pgid := none }
  if w.2 then (w.1, .exitInRedirect)
  else
    let c1 := match os.setpgid first_child with
      | none => { w.1 with pgid := some first_child }
      | some errno => { w.1 with err := w.1.err ++ [os.strerror errno] }
    match p.commands.get? i with
    | none => (c1, .commandNotFound)
    | some cmd =>
      if os.execvp cmd.command then (c1, .exec (cmd.command :: cmd.tokens))
      else ({ c1 with err := c1.err ++ [cmd.command ++ ": Command not found."] }, .commandNotFound)

/-- The child that `createJob(p)` forks for stage `i`, started from the shell `s`:
it runs the child side with the pipes `createJob` has created, the value of
`first_child` in the parent and the descriptor table the shell has at the fork. -/
def stageChild (env : Env) (os : ChildEnv) (s : Shell) (p : pipeline) (i : Nat) :
    Child × ChildEnd :=
  createJobChild os p (createJobSpawn env s p).pipes i (createJobSpawn env s p).first_child
    (createJobSpawn env s p).forkFds

/-- The processes of the job table that receive a signal sent to `target`.  Every
job runs in the process group named by its group id (`createJob` calls
`setpgid(pid, first_child)` for each stage); the shell's own group holds no process
of a job. -/
def recipients (jl : STSHJobList) : KillTarget → List Int
  | .process pid => ((jl.jobs.flatMap (fun j => j.processes)).map (fun q => q.pid)).filter (fun q => q == pid)
  | .group pgid =>
    ((jl.jobs.filter (fun j => j.getGroupID == pgid)).flatMap (fun j => j.processes)).map (fun q => q.pid)
  | .callerGroup => []
  | .everyone => (jl.jobs.flatMap (fun j => j.processes)).map (fun q => q.pid)

/-- The values returned by the `fork` calls of a list of system calls, in order. -/
def forkRets (calls : List Syscall) : List Int :=
  calls.filterMap (fun c => match c with
    | .fork ret => some ret
    | _ => none)

/-- The argument pairs `(pid, pgid)` of the `setpgid` calls of a list of system
calls, in order. -/
def setpgidCalls (calls : List Syscall) : List (Int × Int) :=
  calls.filterMap (fun c => match c with
    | .setpgid pid pgid => some (pid, pgid)
    | _ => none)

/-- The system calls `createJob` issues up to the close of the pipes in the
parent, in order. -/
def spawnCalls (env : Env) (s : Shell) (p : pipeline) : List Syscall :=
  (createJobSpawn env s p).shell.trace.drop s.trace.length

/-- The pids returned by the `fork` calls of `createJob`, in order. -/
def spawnPids (env : Env) (s : Shell) (p : pipeline) : List Int :=
  forkRets (spawnCalls env s p)

/-- The new job as it stands in the table once every stage is forked. -/
def spawnedJob (env : Env) (s : Shell) (p : pipeline) : Option STSHJob :=
  (createJobSpawn env s p).shell.joblist.getJob (createJobSpawn env s p).jobNum

/-- The descriptors handed out by the first `k` calls of `pipe` are fresh: none of
them is 0 or 1 (standard input and output are open when `pipe` is called) and no
descriptor is handed out twice. -/
def PipesFresh (env : Env) (k : Nat) : Prop :=
  (∀ j, j < k → 1 < (env.pipe j).rd ∧ 1 < (env.pipe j).wr ∧ (env.pipe j).rd ≠ (env.pipe j).wr) ∧
  (∀ i, i < k → ∀ j, j < i →
    (env.pipe i).rd ≠ (env.pipe j).rd ∧ (env.pipe i).rd ≠ (env.pipe j).wr ∧
    (env.pipe i).wr ≠ (env.pipe j).rd ∧ (env.pipe i).wr ≠ (env.pipe j).wr)

/-- Freshness of the pipe descriptors is a finite check. -/
instance (env : Env) (k : Nat) : Decidable (PipesFresh env k) := by
  unfold PipesFresh
  infer_instance

/-! ## Concrete shells and environments -/

/-- A stage `sleep 10`. -/
def sleepCmd : command := { command := "sleep", tokens := ["10"] }

/-- A stage `cat`. -/
def catCmd : command := { command := "cat", tokens := [] }

/-- An operating system on which every call succeeds: the shell has pid 1, the
call `fork` made after `t` system calls answers `1000 + t`, and the k-th pipe is
the descriptor pair `(3 + 2k, 4 + 2k)`. -/
def env0 : Env :=
  { getpid := 1
    tcsetpgrp := fun _ _ _ => .ok
    fork := fun t => 1000 + t
    setpgid := fun _ _ _ => none
    pipe := fun k => { rd := 3 + 2 * k, wr := 4 + 2 * k }
    strerror := fun _ => "error" }

/-- A shell with the given job table that has issued no system call yet and has
its three standard descriptors open. -/
def shellWith (jl : STSHJobList) : Shell :=
  { joblist := jl, trace := [], out := [], err := [], pending := [],
    fds := [(0, .inherited 0), (1, .inherited 1), (2, .inherited 2)] }

/-- Job 1 is the stopped two-stage pipeline with pids 10 and 11, job 2 is a
foreground job with pid 20. -/
def tableStoppedAndForeground : STSHJobList :=
  { jobs :=
      [ { num := 1, state := .kStopped,
          processes := [ { pid := 10, cmd := catCmd, state := .kStopped },
                         { pid := 11, cmd := catCmd, state := .kStopped } ] },
        { num := 2, state := .kForeground,
          processes := [ { pid := 20, cmd := sleepCmd, state := .kRunning } ] } ] }

/-- Job 1 is the stopped two-stage pipeline with pids 10 and 11; no job is
Foreground. -/
def tableStoppedOnly : STSHJobList :=
  { jobs :=
      [ { num := 1, state := .kStopped,
          processes := [ { pid := 10, cmd := catCmd, state := .kStopped },
                         { pid := 11, cmd := catCmd, state := .kStopped } ] } ] }

/-- Job 1 is a running two-stage pipeline with pids 10 and 11 in the given job
state. -/
def tableRunningPair (st : STSHJobState) : STSHJobList :=
  { jobs :=
      [ { num := 1, state := st,
          processes := [ { pid := 10, cmd := catCmd, state := .kRunning },
                         { pid := 11, cmd := catCmd, state := .kRunning } ] } ] }

/-- The foreground pipeline `cat | cat`. -/
def twoStage : pipeline :=
  { commands := [catCmd, catCmd], input := "", output := "", background := false }

/-- An operating system that is out of processes: every `fork` answers -1, and
`setpgid` on the pid -1 fails with ESRCH (errno 3). -/
def envForkFails : Env :=
  { getpid := 1
    tcsetpgrp := fun _ _ _ => .ok
    fork := fun _ => -1
    setpgid := fun _ _ _ => some 3
    pipe := fun k => { rd := 3 + 2 * k, wr := 4 + 2 * k }
    strerror := fun _ => "No such process" }

/-- The background pipeline `sleep 10 &`. -/
def sleepInBackground : pipeline :=
  { commands := [sleepCmd], input := "", output := "", background := true }

/-- The shell after `sleep 10 &` was started from `tableStoppedOnly` while `fork`
failed: job 2 holds a process with pid -1. -/
def shellAfterFailedFork : Shell :=
  { shellWith tableStoppedOnly with
    joblist :=
      { jobs :=
          [ { num := 1, state := .kStopped,
              processes := [ { pid := 10, cmd := catCmd, state := .kStopped },
                             { pid := 11, cmd := catCmd, state := .kStopped } ] },
            { num := 2, state := .kBackground,
              processes := [ { pid := -1, cmd := sleepCmd, state := .kRunning } ] } ] }
    trace := [.fork (-1), .setpgid (-1) (-1)]
    out := ["[2] -1"]
    err := ["No such process"] }

/-- A shell with an empty job table that runs with descriptor 1 closed (started as
`stsh >&-`). -/
def shellStdoutClosed : Shell :=
  { shellWith { jobs := [] } with fds := [(0, .inherited 0), (2, .inherited 2)] }

/-- The foreground pipeline `cat > out`. -/
def catToOut : pipeline :=
  { commands := [catCmd], input := "", output := "out", background := false }

/-- A child in which `open` hands out descriptor 1, the lowest free descriptor of
a process that runs with descriptors 0 and 2 open and 1 closed. -/
def osOpenGivesOne : ChildEnv :=
  { getpid := 1001
    sys_open := fun _ _ => .ok 1
    setpgid := fun _ => none
    execvp := fun _ => true
    strerror := fun _ => "error" }

/-! ## The terminal control arbiter -/

theorem noSuchJob_ne_transfer (n : Nat) :
    noSuchJob "bg" n ≠ "Error: Control Transfer Failed" := by
  intro h
  have h2 := congrArg String.data h
  simp [noSuchJob, String.data_append] at h2

theorem noSuchJob_bg (n : Nat) : noSuchJob "bg" n = "bg " ++ toString n ++ ": No such job." := by
  simp [noSuchJob]

theorem fatal_iff (r : TcResult) :
    r.fatal = true ↔ ∃ errno, r = .fail errno ∧ errno ≠ ENOTTY := by
  cases r with
  | ok => simp [TcResult.fatal]
  | fail e => simp [TcResult.fatal]

/-- The three ways `giveTermCtrl` can run. -/
theorem giveTermCtrl_eq (env : Env) (s : Shell) (gpid : Int) :
    giveTermCtrl env s gpid =
      if (env.tcsetpgrp s.trace.length STDOUT_FILENO gpid).fatal then
        ({ s with trace := s.trace ++
            [.tcsetpgrp STDOUT_FILENO gpid (env.tcsetpgrp s.trace.length STDOUT_FILENO gpid)] },
          .threw "Error: Control Transfer Failed")
      else
        ({ s with trace := s.trace ++
            [.tcsetpgrp STDOUT_FILENO gpid (env.tcsetpgrp s.trace.length STDOUT_FILENO gpid),
             .tcsetpgrp STDIN_FILENO gpid
               (env.tcsetpgrp (s.trace.length + 1) STDIN_FILENO gpid)] },
          if (env.tcsetpgrp (s.trace.length + 1) STDIN_FILENO gpid).fatal then
            .threw "Error: Control Transfer Failed"
          else .returned) := by
  unfold giveTermCtrl
  simp only [Shell.log, List.length_append, List.length_singleton, List.append_assoc,
    List.singleton_append]
  split
  · rfl
  · split <;> rfl

theorem giveTermCtrl_outcome (env : Env) (s : Shell) (gpid : Int) :
    (giveTermCtrl env s gpid).2 = .returned ∨
      (giveTermCtrl env s gpid).2 = .threw "Error: Control Transfer Failed" := by
  rw [giveTermCtrl_eq]
  split
  · right; rfl
  · split
    · right; rfl
    · left; rfl

/-- C8: `giveTermCtrl` throws "Error: Control Transfer Failed" exactly when one of
the `tcsetpgrp` calls it makes fails with an errno other than ENOTTY; it writes
nothing and leaves the job table alone in every case; and it returns exactly when
it has asked for both standard output and standard input, in that order, for the
given process group, each call answered by success or by ENOTTY. -/
theorem giveTermCtrl_throws_iff (env : Env) (s : Shell) (gpid : Int) :
    ((giveTermCtrl env s gpid).2 = .threw "Error: Control Transfer Failed" ↔
      ∃ fd errno, Syscall.tcsetpgrp fd gpid (.fail errno) ∈
        (giveTermCtrl env s gpid).1.trace.drop s.trace.length ∧ errno ≠ ENOTTY) ∧
    ((giveTermCtrl env s gpid).2 = .returned ↔
      ∃ r1 r2, r1.fatal = false ∧ r2.fatal = false ∧
        (giveTermCtrl env s gpid).1.trace =
          s.trace ++ [.tcsetpgrp STDOUT_FILENO gpid r1, .tcsetpgrp STDIN_FILENO gpid r2]) ∧
    ((giveTermCtrl env s gpid).2 = .returned ∨
      (giveTermCtrl env s gpid).2 = .threw "Error: Control Transfer Failed") ∧
    (giveTermCtrl env s gpid).1.out = s.out ∧
    (giveTermCtrl env s gpid).1.err = s.err ∧
    (giveTermCtrl env s gpid).1.joblist = s.joblist := by
  refine ⟨?_, ?_, giveTermCtrl_outcome env s gpid, ?_, ?_, ?_⟩
  · rw [giveTermCtrl_eq]
    generalize env.tcsetpgrp s.trace.length STDOUT_FILENO gpid = r1
    generalize env.tcsetpgrp (s.trace.length + 1) STDIN_FILENO gpid = r2
    cases r1 with
    | ok =>
      cases r2 with
      | ok => simp [TcResult.fatal]
      | fail e2 =>
        by_cases he2 : e2 = ENOTTY
        · simp [TcResult.fatal, he2]
        · simp only [TcResult.fatal, bne_iff_ne, ne_eq, he2, not_false_eq_true, decide_True,
            if_true, Bool.false_eq_true, if_false, List.drop_left, true_iff]
          exact ⟨STDIN_FILENO, e2, by simp, he2⟩
    | fail e1 =>
      by_cases he1 : e1 = ENOTTY
      · cases r2 with
        | ok => simp [TcResult.fatal, he1]
        | fail e2 =>
          by_cases he2 : e2 = ENOTTY
          · simp only [TcResult.fatal, he1, he2, bne_self_eq_false, Bool.false_eq_true, if_false,
              List.drop_left]
            constructor
            · intro h; cases h
            · rintro ⟨fd, errno, hmem, hne⟩
              simp at hmem
              rcases hmem with ⟨_, h⟩ | ⟨_, h⟩ <;> exact absurd h hne
          · simp only [TcResult.fatal, bne_iff_ne, ne_eq, he1, he2, not_false_eq_true, decide_True,
              if_true, bne_self_eq_false, Bool.false_eq_true, if_false, List.drop_left, true_iff]
            exact ⟨STDIN_FILENO, e2, by simp, he2⟩
      · simp only [TcResult.fatal, bne_iff_ne, ne_eq, he1, not_false_eq_true, decide_True,
          if_true, List.drop_left, true_iff]
        exact ⟨STDOUT_FILENO, e1, by simp, he1⟩
  · rw [giveTermCtrl_eq]
    generalize env.tcsetpgrp s.trace.length STDOUT_FILENO gpid = r1
    generalize env.tcsetpgrp (s.trace.length + 1) STDIN_FILENO gpid = r2
    by_cases h1 : r1.fatal = true
    · simp only [h1, if_true]
      constructor
      · intro h; cases h
      · rintro ⟨q1, q2, _, _, h⟩
        have := congrArg List.length h
        simp at this
    · by_cases h2 : r2.fatal = true
      · simp only [h1, h2, if_true, Bool.false_eq_true, if_false]
        constructor
        · intro h; cases h
        · rintro ⟨q1, q2, _, hf2, h⟩
          simp at h
          rw [← h.2] at hf2
          simp [h2] at hf2
      · simp only [h1, h2, Bool.false_eq_true, if_false, true_iff]
        exact ⟨r1, r2, by simpa using h1, by simpa using h2, rfl⟩
  · rw [giveTermCtrl_eq]; split <;> rfl
  · rw [giveTermCtrl_eq]; split <;> rfl
  · rw [giveTermCtrl_eq]; split <;> rfl

/-! ## The builtins `slay`, `halt`, `cont` and `bg` -/

theorem containsProcess_iff_mem (jl : STSHJobList) (pid : Int) :
    jl.containsProcess pid = true ↔
      pid ∈ (jl.jobs.flatMap (fun j => j.processes)).map (fun q => q.pid) := by
  simp only [STSHJobList.containsProcess, STSHJob.containsProcess, List.any_eq_true, beq_iff_eq,
    List.mem_map, List.mem_flatMap]
  constructor
  · rintro ⟨j, hj, q, hq, rfl⟩
    exact ⟨q, ⟨j, hj, hq⟩, rfl⟩
  · rintro ⟨q, ⟨j, hj, hq⟩, rfl⟩
    exact ⟨j, hj, q, hq, rfl⟩

theorem noProcess_eq (pid : Int) : noProcess pid = "No process with pid " ++ toString pid := rfl

/-- What `slay`, `halt` and `cont` do, for every shell and every number: when the
job table holds `pid`, each returns after exactly one system call,
`kill(pid, SIGKILL)`, `kill(pid, SIGSTOP)` and `kill(pid, SIGCONT)` respectively,
and changes nothing else; when `pid` is positive that call addresses the single
process `pid`, and the only process of the job table that receives the signal is
`pid`.  When the job table does not hold `pid`, each of them throws
"No process with pid <pid>" and leaves the shell state as it was. -/
theorem signal_builtins_on_positive_pid (s : Shell) (pid : Int) :
    (s.joblist.containsProcess pid = true →
      slay s pid = ({ s with trace := s.trace ++ [.kill pid .SIGKILL] }, .returned) ∧
      halt s pid = ({ s with trace := s.trace ++ [.kill pid .SIGSTOP] }, .returned) ∧
      cont s pid = ({ s with trace := s.trace ++ [.kill pid .SIGCONT] }, .returned) ∧
      (0 < pid → killTarget pid = .process pid ∧
        ∀ q, q ∈ recipients s.joblist (killTarget pid) ↔ q = pid)) ∧
    (s.joblist.containsProcess pid = false →
      slay s pid = (s, .threw ("No process with pid " ++ toString pid)) ∧
      halt s pid = (s, .threw ("No process with pid " ++ toString pid)) ∧
      cont s pid = (s, .threw ("No process with pid " ++ toString pid))) := by
  constructor
  · intro h
    refine ⟨by simp [slay, h, Shell.log], by simp [halt, h, Shell.log],
      by simp [cont, h, Shell.log], ?_⟩
    intro hpos
    have ht : killTarget pid = .process pid := by simp [killTarget, hpos]
    refine ⟨ht, ?_⟩
    intro q
    rw [ht]
    simp only [recipients, List.mem_filter, beq_iff_eq]
    constructor
    · exact fun hq => hq.2
    · rintro rfl
      exact ⟨(containsProcess_iff_mem _ _).1 h, rfl⟩
  · intro h
    simp [slay, halt, cont, h, noProcess_eq]

/-- The first argument of `kill` names a single process exactly when it is
positive. -/
theorem killTarget_process_iff (pid : Int) : killTarget pid = .process pid ↔ 0 < pid := by
  unfold killTarget
  by_cases h : 0 < pid
  · simp [h]
  · by_cases h0 : pid = 0
    · simp [h0]
    · by_cases h1 : pid = -1
      · simp [h1]
      · simp [h, h0, h1]

/-- C1 as stated fails: in a table where job 1 exists and job 2 is Foreground,
`bg 1` is not refused (it returns and rewrites the job table); in a table where job
1 exists and no job is Foreground, `bg 1` is refused. -/
theorem bg_refusal_not_as_claimed :
    ¬ ((bg env0 (shellWith tableStoppedAndForeground) 1).2 = .threw "bg 1: No such job." ↔
        (tableStoppedAndForeground.containsJob 1 = false ∨
          tableStoppedAndForeground.hasForegroundJob = true)) ∧
    (bg env0 (shellWith tableStoppedAndForeground) 1).2 = .returned ∧
    (bg env0 (shellWith tableStoppedAndForeground) 1).1.joblist ≠ tableStoppedAndForeground ∧
    tableStoppedOnly.containsJob 1 = true ∧
    tableStoppedOnly.hasForegroundJob = false ∧
    (bg env0 (shellWith tableStoppedOnly) 1).2 = .threw "bg 1: No such job." := by
  decide

/-- C1, amended: `bg n` throws "bg n: No such job." exactly when job `n` does not
exist or no job is Foreground; a refused `bg` issues no system call (so no signal)
and leaves the job table and every process state as they were. -/
theorem bg_refused_iff (env : Env) (s : Shell) (n : Nat) :
    ((bg env s n).2 = .threw ("bg " ++ toString n ++ ": No such job.") ↔
      (s.joblist.containsJob n = false ∨ s.joblist.hasForegroundJob = false)) ∧
    ((bg env s n).2 = .threw ("bg " ++ toString n ++ ": No such job.") → (bg env s n).1 = s) := by
  rw [← noSuchJob_bg]
  by_cases hc : s.joblist.containsJob n = true
  · by_cases hf : s.joblist.hasForegroundJob = true
    · have hne : (bg env s n).2 ≠ .threw (noSuchJob "bg" n) := by
        unfold bg
        simp only [hc, hf, Bool.and_self, if_true]
        cases hj : s.joblist.getJob n with
        | none =>
          simp [STSHJobList.getJob, STSHJobList.containsJob] at hj hc
          obtain ⟨j, hj1, hj2⟩ := hc
          exact absurd hj2 (hj j hj1)
        | some job =>
          simp only
          rcases giveTermCtrl_outcome env
            { s with joblist := updateJobList s.joblist job.getGroupID .kRunning } env.getpid
            with h | h
          · rw [h]; simp
          · rw [h]
            intro h2
            injection h2 with h3
            exact noSuchJob_ne_transfer n h3.symm
      simp [hne, hc, hf]
    · simp [bg, hc, hf]
  · simp [bg, hc]

/-- C1, amended, at two tables: with job 2 Foreground `bg 1` is not refused; with no
job Foreground `bg 1` is refused and the shell is unchanged. -/
theorem bg_refused_iff_witness :
    (bg env0 (shellWith tableStoppedAndForeground) 1).2 ≠ .threw ("bg " ++ toString 1 ++ ": No such job.") ∧
    (bg env0 (shellWith tableStoppedOnly) 1).1 = shellWith tableStoppedOnly :=
  ⟨fun h => absurd ((bg_refused_iff env0 (shellWith tableStoppedAndForeground) 1).1.1 h) (by decide),
   (bg_refused_iff env0 (shellWith tableStoppedOnly) 1).2
     ((bg_refused_iff env0 (shellWith tableStoppedOnly) 1).1.2 (by decide))⟩

/-! ## Inputs at which the code departs from its specification -/

/-- C10 fails on the code: an accepted `bg 1` (job 1 is the stopped pipeline of
pids 10 and 11, job 2 is Foreground) returns having issued only the two
`tcsetpgrp` calls of `giveTermCtrl(getpid())`: no SIGCONT is sent to anyone; in the
job table only the group leader 10 has become Running, and pid 11 is still
Stopped. -/
theorem bg_accepted_sends_no_signal :
    bg env0 (shellWith tableStoppedAndForeground) 1 =
      ({ shellWith tableStoppedAndForeground with
          trace := [.tcsetpgrp 1 1 .ok, .tcsetpgrp 0 1 .ok]
          joblist :=
            { jobs :=
                [ { num := 1, state := .kBackground,
                    processes := [ { pid := 10, cmd := catCmd, state := .kRunning },
                                   { pid := 11, cmd := catCmd, state := .kStopped } ] },
                  { num := 2, state := .kForeground,
                    processes := [ { pid := 20, cmd := sleepCmd, state := .kRunning } ] } ] } },
        .returned) ∧
    (∀ pid sig, Syscall.kill pid sig ∉ (bg env0 (shellWith tableStoppedAndForeground) 1).1.trace) := by
  refine ⟨by decide, ?_⟩
  intro pid sig h
  have ht : (bg env0 (shellWith tableStoppedAndForeground) 1).1.trace =
      [.tcsetpgrp 1 1 .ok, .tcsetpgrp 0 1 .ok] := by decide
  rw [ht] at h
  simp at h

/-- C9 fails on the code: with the two-process job (pids 10 and 11, group 10) in
the foreground, each handler issues one `kill` whose first argument is the
positive number 10; that addresses the single process 10, so pid 11 is not a
recipient, whereas a signal to the group 10 would reach both. -/
theorem handlers_signal_only_the_leader :
    (sigint_handler (shellWith (tableRunningPair .kForeground))).trace = [.kill 10 .SIGINT] ∧
    (sigtstp_handler (shellWith (tableRunningPair .kForeground))).trace = [.kill 10 .SIGTSTP] ∧
    killTarget 10 = .process 10 ∧
    recipients (tableRunningPair .kForeground) (killTarget 10) = [10] ∧
    11 ∉ recipients (tableRunningPair .kForeground) (killTarget 10) ∧
    recipients (tableRunningPair .kForeground) (.group 10) = [10, 11] := by
  decide

/-- C3 fails on the code: with two status changes pending (pids 10 and 11 have
both exited), one run of `sigchild_handler` calls `waitpid` once, reaps only the
change of pid 10 and returns with the change of pid 11 still pending and pid 11
still Running in the job table. -/
theorem sigchild_handler_reaps_one :
    sigchild_handler
        { shellWith (tableRunningPair .kForeground) with
          pending := [(10, .exited 0), (11, .exited 0)] } =
      { shellWith (tableRunningPair .kForeground) with
        trace := [.waitpid 10]
        pending := [(11, .exited 0)]
        joblist :=
          { jobs := [ { num := 1, state := .kForeground,
                        processes := [ { pid := 11, cmd := catCmd, state := .kRunning } ] } ] } } := by
  decide

/-- C4 fails on the code: `sleep 10 &` is started while `fork` fails.  `createJob`
records the answer -1 of `fork` as the pid of a process of the new job 2, next to
job 1 with the pids 10 and 11.  The table now holds pid -1, so `slay -1` is
accepted and issues `kill(-1, SIGKILL)`, which addresses every process the shell
may signal: the pids 10 and 11 of job 1 are among the recipients. -/
theorem slay_minus_one_signals_everyone :
    createJob envForkFails (shellWith tableStoppedOnly) sleepInBackground [] =
      (shellAfterFailedFork, .returned) ∧
    shellAfterFailedFork.joblist.containsProcess (-1) = true ∧
    slay shellAfterFailedFork (-1) =
      ({ shellAfterFailedFork with
          trace := [.fork (-1), .setpgid (-1) (-1), .kill (-1) .SIGKILL] }, .returned) ∧
    killTarget (-1) = .everyone ∧
    recipients shellAfterFailedFork.joblist (killTarget (-1)) = [10, 11, -1] := by
  decide

/-- C6 fails on the code: for the foreground pipeline `cat | cat`, whose two
stages get the pids 1002 and 1004 and are both put in the process group 1002,
`createJob` asks `tcsetpgrp` for the process group 1004, the pid of the last stage,
and not for the job's group 1002. -/
theorem createJob_gives_terminal_to_last_pid :
    (createJobSpawn env0 (shellWith { jobs := [] }) twoStage).first_child = 1002 ∧
    ((createJobSpawn env0 (shellWith { jobs := [] }) twoStage).shell.joblist.getJob 1).map
        STSHJob.getGroupID = some 1002 ∧
    (createJob env0 (shellWith { jobs := [] }) twoStage []).1.trace =
      [.sigprocmask .SIG_BLOCK, .pipe 3 4,
       .fork 1002, .setpgid 1002 1002, .fork 1004, .setpgid 1004 1002,
       .close 3, .close 4,
       .tcsetpgrp 1 1004 .ok, .tcsetpgrp 0 1004 .ok] := by
  decide

/-! ## The parent side of `createJob` -/

theorem nextJobNum_fresh (jl : STSHJobList) : jl.containsJob jl.nextJobNum = false := by
  unfold STSHJobList.nextJobNum
  cases h : (List.range jl.jobs.length).find? (fun k => !jl.containsJob (k + 1)) with
  | some k =>
    have := List.find?_some h
    simpa using this
  | none =>
    simp only
    rw [List.find?_eq_none] at h
    have hall : ∀ k, k < jl.jobs.length → (k + 1) ∈ jl.jobs.map (fun j => j.num) := by
      intro k hk
      have := h k (List.mem_range.2 hk)
      simp only [Bool.not_eq_true, Bool.not_eq_false_eq_eq_true, Bool.not_not,
        STSHJobList.containsJob, List.any_eq_true, beq_iff_eq] at this
      obtain ⟨j, hj, hjn⟩ := this
      exact List.mem_map.2 ⟨j, hj, hjn⟩
    have hsub : (List.range jl.jobs.length).map (fun k => k + 1) ⊆ jl.jobs.map (fun j => j.num) := by
      intro x hx
      obtain ⟨k, hk, rfl⟩ := List.mem_map.1 hx
      exact hall k (List.mem_range.1 hk)
    have hnd : ((List.range jl.jobs.length).map (fun k => k + 1)).Nodup :=
      (List.nodup_range _).map (fun a b hab => by simpa using hab)
    have hperm := (List.subperm_of_subset hnd hsub).perm_of_length_le (by simp)
    by_contra hc
    simp only [Bool.not_eq_false, STSHJobList.containsJob, List.any_eq_true, beq_iff_eq] at hc
    obtain ⟨j, hj, hjn⟩ := hc
    have hmem : jl.jobs.length + 1 ∈ jl.jobs.map (fun j => j.num) := List.mem_map.2 ⟨j, hj, hjn⟩
    have := hperm.symm.subset hmem
    simp at this

theorem getJob_eq_none_of_not_contains (jl : STSHJobList) (n : Nat)
    (h : jl.containsJob n = false) : jl.getJob n = none := by
  unfold STSHJobList.getJob
  rw [List.find?_eq_none]
  intro j hj hjn
  have : jl.containsJob n = true := by
    simp only [STSHJobList.containsJob, List.any_eq_true]
    exact ⟨j, hj, hjn⟩
  rw [h] at this
  cases this

theorem getJob_addJob (jl : STSHJobList) (st : STSHJobState) :
    (jl.addJob st).1.getJob (jl.addJob st).2 =
      some { num := jl.nextJobNum, state := st, processes := [] } := by
  have h := getJob_eq_none_of_not_contains jl _ (nextJobNum_fresh jl)
  unfold STSHJobList.getJob at h
  simp [STSHJobList.addJob, STSHJobList.getJob, List.find?_append, h]

theorem getJob_updateJob (jl : STSHJobList) (n : Nat) (f : STSHJob → STSHJob)
    (hf : ∀ j, (f j).num = j.num) :
    (jl.updateJob n f).getJob n = (jl.getJob n).map f := by
  obtain ⟨jobs⟩ := jl
  simp only [STSHJobList.updateJob, STSHJobList.getJob]
  induction jobs with
  | nil => rfl
  | cons j js ih =>
    simp only [List.map_cons, List.find?_cons]
    by_cases hj : j.num = n
    · simp [hj, hf]
    · have hb : (j.num == n) = false := by simpa using hj
      simp only [hb, Bool.false_eq_true, if_false]
      exact ih

theorem getJob_foldl_addProcess (n : Nat) (qs : List STSHProcess) (jl : STSHJobList) :
    (qs.foldl (fun t q => t.addProcess n q) jl).getJob n =
      (jl.getJob n).map (fun j => { j with processes := j.processes ++ qs }) := by
  induction qs generalizing jl with
  | nil => cases h : jl.getJob n <;> simp [h]
  | cons q qs ih =>
    rw [List.foldl_cons, ih, STSHJobList.addProcess, getJob_updateJob]
    · cases h : jl.getJob n <;> simp
    · intro j; rfl

theorem createPipes_trace (env : Env) (k : Nat) (s : Shell) :
    ∃ T, (createPipes env k s).2.trace = s.trace ++ T ∧ forkRets T = [] ∧
      setpgidCalls T = [] ∧ (createPipes env k s).2.joblist = s.joblist := by
  induction k with
  | zero => exact ⟨[], by simp [createPipes], rfl, rfl, rfl⟩
  | succ k ih =>
    obtain ⟨T, h1, h2, h3, h4⟩ := ih
    refine ⟨T ++ [.pipe (env.pipe k).rd (env.pipe k).wr], ?_, ?_, ?_, ?_⟩
    · simp [createPipes, Shell.log, h1]
    · simp [forkRets] at h2 ⊢
      exact h2
    · simp [setpgidCalls] at h3 ⊢
      exact h3
    · simp [createPipes, Shell.log, h4]

theorem closePipes_trace (pipes : List Pipe) (s : Shell) :
    ∃ T, (closePipes pipes s).trace = s.trace ++ T ∧ forkRets T = [] ∧
      setpgidCalls T = [] ∧ (closePipes pipes s).joblist = s.joblist := by
  induction pipes generalizing s with
  | nil => exact ⟨[], by simp [closePipes], rfl, rfl, rfl⟩
  | cons p ps ih =>
    obtain ⟨T, h1, h2, h3, h4⟩ := ih
      { (s.log (.close p.rd)).log (.close p.wr) with fds := (s.fds.close p.rd).close p.wr }
    simp only [Shell.log, List.append_assoc, List.singleton_append] at h1 h4
    refine ⟨[.close p.rd, .close p.wr] ++ T, ?_, ?_, ?_, ?_⟩
    · simp only [closePipes, Shell.log, List.append_assoc, List.singleton_append]
      rw [h1]
    · simp [forkRets] at h2 ⊢
      exact h2
    · simp [setpgidCalls] at h3 ⊢
      exact h3
    · simp only [closePipes, Shell.log, List.append_assoc, List.singleton_append]
      rw [h4]

theorem forkStages_spec (env : Env) (n : Nat) (cs : List command) :
    ∀ (i : Nat) (fc pid : Int) (s : Shell), ∃ T,
      (forkStages env n cs i fc pid s).1.trace = s.trace ++ T ∧
      (forkRets T).length = cs.length ∧
      setpgidCalls T =
        (forkRets T).map (fun q => (q, if i = 0 then (forkRets T).headD fc else fc)) ∧
      (forkStages env n cs i fc pid s).2.1 = (if i = 0 then (forkRets T).headD fc else fc) ∧
      (forkStages env n cs i fc pid s).1.joblist =
        (List.zipWith STSHProcess.new (forkRets T) cs).foldl (fun t q => t.addProcess n q)
          s.joblist ∧
      (∀ q ∈ forkRets T, ∃ t, q = env.fork t) := by
  induction cs with
  | nil =>
    intro i fc pid s
    refine ⟨[], by simp [forkStages], rfl, rfl, ?_, rfl, by simp [forkRets]⟩
    by_cases hi : i = 0 <;> simp [forkStages, forkRets, hi]
  | cons c cs ih =>
    intro i fc pid s
    obtain ⟨T, h1, h2, h3, h4, h5, h6⟩ := ih (i + 1)
      (if i == 0 then env.fork s.trace.length else fc) (env.fork s.trace.length)
      { joblist := STSHJobList.addProcess s.joblist n (STSHProcess.new (env.fork s.trace.length) c)
        trace := s.trace ++ [.fork (env.fork s.trace.length),
          .setpgid (env.fork s.trace.length) (if i == 0 then env.fork s.trace.length else fc)]
        out := s.out
        err := match env.setpgid (s.trace.length + 1) (env.fork s.trace.length)
            (if i == 0 then env.fork s.trace.length else fc) with
          | none => s.err
          | some errno => s.err ++ [env.strerror errno]
        pending := s.pending
        fds := s.fds }
    have hstep : forkStages env n (c :: cs) i fc pid s =
        forkStages env n cs (i + 1)
          (if i == 0 then env.fork s.trace.length else fc) (env.fork s.trace.length)
          { joblist := STSHJobList.addProcess s.joblist n
              (STSHProcess.new (env.fork s.trace.length) c)
            trace := s.trace ++ [.fork (env.fork s.trace.length),
              .setpgid (env.fork s.trace.length) (if i == 0 then env.fork s.trace.length else fc)]
            out := s.out
            err := match env.setpgid (s.trace.length + 1) (env.fork s.trace.length)
                (if i == 0 then env.fork s.trace.length else fc) with
              | none => s.err
              | some errno => s.err ++ [env.strerror errno]
            pending := s.pending
            fds := s.fds } := by
      simp only [forkStages, Shell.log, List.length_append, List.length_singleton,
        List.append_assoc, List.singleton_append]
      cases env.setpgid (s.trace.length + 1) (env.fork s.trace.length)
        (if i == 0 then env.fork s.trace.length else fc) <;> rfl
    rw [hstep]
    simp only [Nat.add_one_ne_zero, if_false] at h3 h4
    refine ⟨[.fork (env.fork s.trace.length),
      .setpgid (env.fork s.trace.length) (if i == 0 then env.fork s.trace.length else fc)] ++ T,
      ?_, ?_, ?_, ?_, ?_, ?_⟩
    · rw [h1]; simp
    · simp [forkRets] at h2 ⊢
      exact h2
    · have e1 : forkRets ([.fork (env.fork s.trace.length),
          .setpgid (env.fork s.trace.length) (if i == 0 then env.fork s.trace.length else fc)] ++ T)
          = env.fork s.trace.length :: forkRets T := by simp [forkRets]
      have e2 : setpgidCalls ([.fork (env.fork s.trace.length),
          .setpgid (env.fork s.trace.length) (if i == 0 then env.fork s.trace.length else fc)] ++ T)
          = (env.fork s.trace.length, (if i == 0 then env.fork s.trace.length else fc)) ::
              setpgidCalls T := by simp [setpgidCalls]
      rw [e1, e2, h3]
      by_cases hi : i = 0 <;> simp [hi]
    · have e1 : forkRets ([.fork (env.fork s.trace.length),
          .setpgid (env.fork s.trace.length) (if i == 0 then env.fork s.trace.length else fc)] ++ T)
          = env.fork s.trace.length :: forkRets T := by simp [forkRets]
      rw [e1, h4]
      by_cases hi : i = 0 <;> simp [hi]
    · have e1 : forkRets ([.fork (env.fork s.trace.length),
          .setpgid (env.fork s.trace.length) (if i == 0 then env.fork s.trace.length else fc)] ++ T)
          = env.fork s.trace.length :: forkRets T := by simp [forkRets]
      rw [e1, h5]
      simp
    · have e1 : forkRets ([.fork (env.fork s.trace.length),
          .setpgid (env.fork s.trace.length) (if i == 0 then env.fork s.trace.length else fc)] ++ T)
          = env.fork s.trace.length :: forkRets T := by simp [forkRets]
      rw [e1]
      intro q hq
      rcases List.mem_cons.1 hq with rfl | hq
      · exact ⟨_, rfl⟩
      · exact h6 q hq

/-- The shell of `createJob` after `addJob` and, for a foreground pipeline, after
`setState(kForeground)` and the block of SIGCHLD. -/
theorem createJobSpawn_shape (env : Env) (s : Shell) (p : pipeline) :
    ∃ s2 : Shell, ∃ P st,
      s2.trace = s.trace ++ P ∧ forkRets P = [] ∧ setpgidCalls P = [] ∧
      s2.joblist.getJob s.joblist.nextJobNum =
        some { num := s.joblist.nextJobNum, state := st, processes := [] } ∧
      (createJobSpawn env s p).jobNum = s.joblist.nextJobNum ∧
      (createJobSpawn env s p).first_child =
        (forkStages env s.joblist.nextJobNum p.commands 0 0 0
          (createPipes env (p.commands.length - 1) s2).2).2.1 ∧
      (createJobSpawn env s p).shell =
        closePipes (createPipes env (p.commands.length - 1) s2).1
          (forkStages env s.joblist.nextJobNum p.commands 0 0 0
            (createPipes env (p.commands.length - 1) s2).2).1 := by
  have hadd := getJob_addJob s.joblist .kBackground
  by_cases hb : p.background = true
  · refine ⟨{ s with joblist := (s.joblist.addJob .kBackground).1 }, [], .kBackground,
      by simp, rfl, rfl, hadd, rfl, ?_, ?_⟩
    · simp [createJobSpawn, hb, STSHJobList.addJob]
    · simp [createJobSpawn, hb, STSHJobList.addJob]
  · have hb2 : p.background = false := by simpa using hb
    refine ⟨({ s with joblist := (STSHJobList.setState (s.joblist.addJob .kBackground).1
        s.joblist.nextJobNum .kForeground) }).log (.sigprocmask .SIG_BLOCK),
      [.sigprocmask .SIG_BLOCK], .kForeground, by simp [Shell.log], rfl, rfl, ?_, rfl, ?_, ?_⟩
    · simp only [Shell.log, STSHJobList.setState]
      rw [getJob_updateJob]
      · have : (s.joblist.addJob .kBackground).2 = s.joblist.nextJobNum := rfl
        rw [this] at hadd
        rw [hadd]
        rfl
      · intro j; rfl
    · simp [createJobSpawn, hb2, STSHJobList.addJob]
    · simp [createJobSpawn, hb2, STSHJobList.addJob]

/-- C5: for a pipeline of N >= 1 stages in which every `fork` succeeds, the parent
side of `createJob` calls `fork` exactly N times; the new job then holds exactly N
Process entries in pipeline order, entry i carrying the pid returned by the i-th
`fork` and the i-th command; the `setpgid` calls are exactly `setpgid(pid_i, pid_0)`
for each stage in order, so that every member is put in the one group named by the
first stage's pid, which is also the value of `first_child` and the group id of the
new job; every member pid is positive, and the job number is a new one. -/
theorem createJob_forks_every_stage (env : Env) (s : Shell) (p : pipeline)
    (hN : 1 ≤ p.commands.length) (hfork : ∀ t, 0 < env.fork t) :
    (spawnPids env s p).length = p.commands.length ∧
    (spawnedJob env s p).map (fun j => j.processes) =
      some (List.zipWith STSHProcess.new (spawnPids env s p) p.commands) ∧
    setpgidCalls (spawnCalls env s p) =
      (spawnPids env s p).map (fun pid => (pid, (spawnPids env s p).headD 0)) ∧
    (createJobSpawn env s p).first_child = (spawnPids env s p).headD 0 ∧
    (spawnedJob env s p).map STSHJob.getGroupID = some ((spawnPids env s p).headD 0) ∧
    (∀ pid ∈ spawnPids env s p, 0 < pid) ∧
    s.joblist.containsJob (createJobSpawn env s p).jobNum = false := by
  obtain ⟨s2, P, st, hP, hPf, hPs, hjob, hnum, hfc, hshell⟩ := createJobSpawn_shape env s p
  obtain ⟨T1, h1t, h1f, h1s, h1j⟩ := createPipes_trace env (p.commands.length - 1) s2
  obtain ⟨T2, h2t, h2len, h2s, h2fc, h2j, h2pos⟩ :=
    forkStages_spec env s.joblist.nextJobNum p.commands 0 0 0
      (createPipes env (p.commands.length - 1) s2).2
  obtain ⟨T3, h3t, h3f, h3s, h3j⟩ := closePipes_trace
    (createPipes env (p.commands.length - 1) s2).1
    (forkStages env s.joblist.nextJobNum p.commands 0 0 0
      (createPipes env (p.commands.length - 1) s2).2).1
  simp only [if_true] at h2s h2fc
  have hcalls : spawnCalls env s p = P ++ T1 ++ T2 ++ T3 := by
    unfold spawnCalls
    rw [hshell, h3t, h2t, h1t, hP]
    simp [List.append_assoc]
  have hpids : spawnPids env s p = forkRets T2 := by
    unfold spawnPids
    rw [hcalls]
    unfold forkRets at hPf h1f h3f ⊢
    simp [List.filterMap_append, hPf, h1f, h3f]
  have hjobs : spawnedJob env s p =
      some { num := s.joblist.nextJobNum, state := st,
             processes := List.zipWith STSHProcess.new (forkRets T2) p.commands } := by
    unfold spawnedJob
    rw [hshell, hnum, h3j, h2j, getJob_foldl_addProcess, h1j, hjob]
    simp
  have hne : forkRets T2 ≠ [] := by
    intro h
    rw [h] at h2len
    simp at h2len
    omega
  refine ⟨by rw [hpids, h2len], by rw [hjobs, hpids]; rfl, ?_, by rw [hfc, h2fc, hpids], ?_, ?_, ?_⟩
  · rw [hcalls, hpids]
    unfold setpgidCalls at hPs h1s h3s h2s ⊢
    simp only [List.filterMap_append, hPs, h1s, h3s, h2s, List.nil_append, List.append_nil]
  · rw [hjobs, hpids]
    cases hT : forkRets T2 with
    | nil => exact absurd hT hne
    | cons q qs =>
      cases hc : p.commands with
      | nil => rw [hc] at hN; simp at hN
      | cons c cs => simp [STSHJob.getGroupID, STSHProcess.new]
  · rw [hpids]
    intro pid hpid
    obtain ⟨t, rfl⟩ := h2pos pid hpid
    exact hfork t
  · rw [hnum]
    exact nextJobNum_fresh s.joblist

/-- C5 at the two-stage foreground pipeline started from an empty job table: two
forks answer 1002 and 1004, the job holds these two processes in order, and both
`setpgid` calls name the group 1002. -/
theorem createJob_forks_every_stage_witness :
    (spawnPids env0 (shellWith { jobs := [] }) twoStage).length = 2 ∧
    (spawnedJob env0 (shellWith { jobs := [] }) twoStage).map (fun j => j.processes) =
      some (List.zipWith STSHProcess.new (spawnPids env0 (shellWith { jobs := [] }) twoStage)
        [catCmd, catCmd]) ∧
    setpgidCalls (spawnCalls env0 (shellWith { jobs := [] }) twoStage) =
      (spawnPids env0 (shellWith { jobs := [] }) twoStage).map
        (fun pid => (pid, (spawnPids env0 (shellWith { jobs := [] }) twoStage).headD 0)) ∧
    spawnPids env0 (shellWith { jobs := [] }) twoStage = [1002, 1004] :=
  ⟨(createJob_forks_every_stage env0 (shellWith { jobs := [] }) twoStage (by decide)
      (by intro t; simp [env0]; omega)).1,
   (createJob_forks_every_stage env0 (shellWith { jobs := [] }) twoStage (by decide)
      (by intro t; simp [env0]; omega)).2.1,
   (createJob_forks_every_stage env0 (shellWith { jobs := [] }) twoStage (by decide)
      (by intro t; simp [env0]; omega)).2.2.1,
   by decide⟩

/-! ## The child side of `createJob` -/

theorem get_close (t : FdTable) (fd x : Nat) :
    (t.close fd).get x = if x = fd then none else t.get x := by
  induction t with
  | nil => simp [FdTable.close, FdTable.get]
  | cons e t ih =>
    unfold FdTable.close at ih ⊢
    by_cases he : e.1 = fd
    · have hb : (e.1 != fd) = false := by simp [he]
      rw [List.filter_cons_of_neg (by simp [he]), ih]
      by_cases hx : x = fd
      · simp [hx]
      · have : ¬ e.1 = x := fun h => hx (h ▸ he)
        simp [hx, FdTable.get, this]
    · rw [List.filter_cons_of_pos (by simp [he])]
      by_cases hx : x = fd
      · have : ¬ e.1 = x := fun h => he (h.trans hx)
        simp only [FdTable.get, hx] at ih ⊢
        simp [he, ih]
      · simp only [FdTable.get, ih, hx, if_false]

theorem get_set (t : FdTable) (fd : Nat) (d : FileDesc) (x : Nat) :
    (t.set fd d).get x = if x = fd then some d else t.get x := by
  by_cases hx : x = fd
  · simp [FdTable.set, FdTable.get, hx]
  · have : ¬ fd = x := fun h => hx h.symm
    simp [FdTable.set, FdTable.get, hx, this, get_close]

theorem get_dup2 (t : FdTable) (a b : Nat) (d : FileDesc) (h : t.get a = some d) (x : Nat) :
    (t.dup2 a b).get x = if x = b then some d else t.get x := by
  unfold FdTable.dup2
  rw [h]
  by_cases hab : a = b
  · subst hab
    by_cases hx : x = a
    · simp [hx, h]
    · simp [hx]
  · by_cases hx : x = b
    · simp [hab, hx, get_set]
    · simp [hab, hx, get_set]

theorem get_open_dup_close (t : FdTable) (fd target : Nat) (d : FileDesc) (x : Nat) :
    (((t.set fd d).dup2 fd target).close fd).get x =
      if x = fd then none else if x = target then some d else t.get x := by
  rw [get_close]
  by_cases hx : x = fd
  · simp [hx]
  · rw [get_dup2 _ _ _ d (by simp [get_set])]
    simp [hx, get_set]

theorem get_closeAll (pipes : List Pipe) (t : FdTable) (x : Nat) :
    (closeAll pipes t).get x =
      if pipes.any (fun q => q.rd == x || q.wr == x) then none else t.get x := by
  induction pipes generalizing t with
  | nil => simp [closeAll]
  | cons q qs ih =>
    simp only [closeAll, ih, get_close, List.any_cons]
    by_cases h1 : q.rd = x
    · simp [h1]
    · by_cases h2 : q.wr = x
      · simp [h2]
      · have h3 : ¬ x = q.rd := fun h => h1 h.symm
        have h4 : ¬ x = q.wr := fun h => h2 h.symm
        simp [h1, h2, h3, h4]

theorem PipesFresh.pred {env : Env} {k : Nat} (h : PipesFresh env (k + 1)) : PipesFresh env k :=
  ⟨fun j hj => h.1 j (by omega), fun i hi j hj => h.2 i (by omega) j hj⟩

theorem createPipes_fds (env : Env) (k : Nat) (s : Shell) (hfresh : PipesFresh env k) :
    (createPipes env k s).1 = (List.range k).map env.pipe ∧
    (∀ j, j < k → (createPipes env k s).2.fds.get (env.pipe j).rd = some (.pipeRead j) ∧
      (createPipes env k s).2.fds.get (env.pipe j).wr = some (.pipeWrite j)) ∧
    (∀ x, (∀ j, j < k → x ≠ (env.pipe j).rd ∧ x ≠ (env.pipe j).wr) →
      (createPipes env k s).2.fds.get x = s.fds.get x) := by
  induction k with
  | zero => simp [createPipes]
  | succ k ih =>
    obtain ⟨ih1, ih2, ih3⟩ := ih hfresh.pred
    refine ⟨?_, ?_, ?_⟩
    · simp [createPipes, ih1, List.range_succ]
    · intro j hj
      simp only [createPipes, Shell.log, get_set]
      by_cases hjk : j = k
      · subst hjk
        have := hfresh.1 j (by omega)
        simp [this.2.2]
      · have hlt : j < k := by omega
        have hne := hfresh.2 k (by omega) j hlt
        have e1 : ¬ (env.pipe j).rd = (env.pipe k).wr := fun h => hne.2.2.1 h.symm
        have e2 : ¬ (env.pipe j).rd = (env.pipe k).rd := fun h => hne.1 h.symm
        have e3 : ¬ (env.pipe j).wr = (env.pipe k).wr := fun h => hne.2.2.2 h.symm
        have e4 : ¬ (env.pipe j).wr = (env.pipe k).rd := fun h => hne.2.1 h.symm
        simp [e1, e2, e3, e4, ih2 j hlt]
    · intro x hx
      simp only [createPipes, Shell.log, get_set]
      have := hx k (by omega)
      simp [this.1, this.2]
      exact ih3 x (fun j hj => hx j (by omega))

theorem pipeAt_createPipes (env : Env) (k : Nat) (s : Shell) (j : Nat) (hj : j < k)
    (hfresh : PipesFresh env k) : pipeAt (createPipes env k s).1 j = env.pipe j := by
  rw [(createPipes_fds env k s hfresh).1]
  simp [pipeAt, List.getD, hj]

/-- What `redirect` does when every `open` it makes succeeds. -/
theorem redirect_ok (os : ChildEnv) (p : pipeline) (useIn useOut : Bool) (c : Child)
    (hin : useIn = true → ∃ fd, os.sys_open p.input .O_RDONLY = .ok fd ∧ 1 < fd)
    (hout : useOut = true → ∃ fd, os.sys_open p.output .O_CREAT_TRUNC_WRONLY = .ok fd ∧ 1 < fd) :
    (redirect os p useIn useOut c).2 = false ∧
    (redirect os p useIn useOut c).1.fds.get STDIN_FILENO =
      (if useIn then some (.file p.input .O_RDONLY) else c.fds.get STDIN_FILENO) ∧
    (redirect os p useIn useOut c).1.fds.get STDOUT_FILENO =
      (if useOut then some (.file p.output .O_CREAT_TRUNC_WRONLY) else c.fds.get STDOUT_FILENO) := by
  cases useIn with
  | false =>
    cases useOut with
    | false => simp [redirect]
    | true =>
      obtain ⟨fo, ho, hfo⟩ := hout rfl
      have h0 : ¬ STDIN_FILENO = fo := by unfold STDIN_FILENO; omega
      have h1 : ¬ STDOUT_FILENO = fo := by unfold STDOUT_FILENO; omega
      have h2 : ¬ STDIN_FILENO = STDOUT_FILENO := by decide
      simp [redirect, ho, get_open_dup_close, h0, h1, h2]
  | true =>
    obtain ⟨fi, hi, hfi⟩ := hin rfl
    have g0 : ¬ STDIN_FILENO = fi := by unfold STDIN_FILENO; omega
    have g1 : ¬ STDOUT_FILENO = fi := by unfold STDOUT_FILENO; omega
    have h2 : ¬ STDIN_FILENO = STDOUT_FILENO := by decide
    have h3 : ¬ STDOUT_FILENO = STDIN_FILENO := by decide
    cases useOut with
    | false => simp [redirect, hi, get_open_dup_close, g0, g1, h3]
    | true =>
      obtain ⟨fo, ho, hfo⟩ := hout rfl
      have h0 : ¬ STDIN_FILENO = fo := by unfold STDIN_FILENO; omega
      have h1 : ¬ STDOUT_FILENO = fo := by unfold STDOUT_FILENO; omega
      simp [redirect, hi, ho, get_open_dup_close, h0, h1, h2, g0, g1]

/-- The wiring of stage `i` when the pipes are fresh and every `open` succeeds: no
`exit(0)`, and the table is `closeAll pipes` of a table with the expected standard
input and output. -/
theorem wireChild_ok (env : Env) (os : ChildEnv) (s : Shell) (p : pipeline) (i : Nat) (c : Child)
    (hc : c.fds = (createPipes env (p.commands.length - 1) s).2.fds)
    (hi : i < p.commands.length)
    (hfresh : PipesFresh env (p.commands.length - 1))
    (hin : i = 0 → p.input ≠ "" → ∃ fd, os.sys_open p.input .O_RDONLY = .ok fd ∧ 1 < fd)
    (hout : i = p.commands.length - 1 → p.output ≠ "" →
      ∃ fd, os.sys_open p.output .O_CREAT_TRUNC_WRONLY = .ok fd ∧ 1 < fd) :
    (wireChild os p (createPipes env (p.commands.length - 1) s).1 i c).2 = false ∧
    ∃ t, (wireChild os p (createPipes env (p.commands.length - 1) s).1 i c).1.fds =
        closeAll (createPipes env (p.commands.length - 1) s).1 t ∧
      t.get STDIN_FILENO =
        (if i = 0 then
          (if p.input = "" then s.fds.get STDIN_FILENO else some (.file p.input .O_RDONLY))
        else some (.pipeRead (i - 1))) ∧
      t.get STDOUT_FILENO =
        (if i < p.commands.length - 1 then some (.pipeWrite i)
        else if p.output = "" then s.fds.get STDOUT_FILENO
        else some (.file p.output .O_CREAT_TRUNC_WRONLY)) := by
  obtain ⟨_, hget, hkeep⟩ := createPipes_fds env (p.commands.length - 1) s hfresh
  have hat := fun j hj => pipeAt_createPipes env (p.commands.length - 1) s j hj hfresh
  have hstd : ∀ x, x ≤ 1 → c.fds.get x = s.fds.get x := by
    intro x hx
    rw [hc]
    apply hkeep
    intro j hj
    have := hfresh.1 j hj
    omega
  have hin2 : i = 0 → (!(p.input == "")) = true →
      ∃ fd, os.sys_open p.input .O_RDONLY = .ok fd ∧ 1 < fd := by
    intro h0 h; exact hin h0 (by simpa using h)
  have hout2 : i = p.commands.length - 1 → (!(p.output == "")) = true →
      ∃ fd, os.sys_open p.output .O_CREAT_TRUNC_WRONLY = .ok fd ∧ 1 < fd := by
    intro h0 h; exact hout h0 (by simpa using h)
  have hs0 : c.fds.get STDIN_FILENO = s.fds.get STDIN_FILENO := hstd 0 (by omega)
  have hs1 : c.fds.get STDOUT_FILENO = s.fds.get STDOUT_FILENO := hstd 1 (by omega)
  have h01 : ¬ STDIN_FILENO = STDOUT_FILENO := by decide
  have h10 : ¬ STDOUT_FILENO = STDIN_FILENO := by decide
  unfold wireChild
  simp only
  by_cases hi0 : i = 0
  · subst hi0
    by_cases hlen : p.commands.length > 1
    · have hwr := (hget 0 (by omega)).2
      rw [← hc] at hwr
      obtain ⟨r1, r2, r3⟩ := redirect_ok os p (!(p.input == "")) false
        { c with fds := (c.fds.dup2 (pipeAt (createPipes env (p.commands.length - 1) s).1 0).wr
            STDOUT_FILENO) } (hin2 rfl) (by simp)
      rw [hat 0 (by omega)] at r1 r2 r3
      simp only [get_dup2 _ _ _ _ hwr, h01, if_false, if_true, Bool.false_eq_true] at r2 r3
      simp only [beq_self_eq_true, if_true, hlen, decide_True, hat 0 (by omega), r1,
        Bool.false_eq_true, if_false]
      refine ⟨trivial, _, rfl, ?_, ?_⟩
      · rw [r2, hs0]
        by_cases hp : p.input = "" <;> simp [hp]
      · rw [r3]
        have : 0 < p.commands.length - 1 := by omega
        simp [this]
    · obtain ⟨r1, r2, r3⟩ := redirect_ok os p (!(p.input == "")) (!(p.output == "")) c
        (hin2 rfl) (hout2 (by omega))
      simp only [beq_self_eq_true, if_true, hlen, decide_False, r1, Bool.false_eq_true, if_false]
      refine ⟨trivial, _, rfl, ?_, ?_⟩
      · rw [r2, hs0]
        by_cases hp : p.input = "" <;> simp [hp]
      · rw [r3, hs1]
        have : ¬ 0 < p.commands.length - 1 := by omega
        by_cases hp : p.output = "" <;> simp [hp, this]
  · have hb0 : (i == 0) = false := by simpa using hi0
    by_cases hlast : i = p.commands.length - 1
    · have hrd := (hget (i - 1) (by omega)).1
      rw [← hc] at hrd
      obtain ⟨r1, r2, r3⟩ := redirect_ok os p false (!(p.output == ""))
        { c with fds := (c.fds.dup2
            (pipeAt (createPipes env (p.commands.length - 1) s).1 (i - 1)).rd STDIN_FILENO) }
        (by simp) (hout2 hlast)
      rw [hat (i - 1) (by omega)] at r1 r2 r3
      simp only [get_dup2 _ _ _ _ hrd, h10, if_false, if_true, Bool.false_eq_true] at r2 r3
      have hbl : (i == p.commands.length - 1) = true := by simpa using hlast
      simp only [hb0, hbl, if_true, hat (i - 1) (by omega), r1, Bool.false_eq_true, if_false]
      refine ⟨trivial, _, rfl, ?_, ?_⟩
      · rw [r2]; simp [hi0]
      · rw [r3, hs1]
        have : ¬ i < p.commands.length - 1 := by omega
        by_cases hp : p.output = "" <;> simp [hp, this]
    · have hrd := (hget (i - 1) (by omega)).1
      have hwr := (hget i (by omega)).2
      rw [← hc] at hrd hwr
      have hbl : (i == p.commands.length - 1) = false := by simpa using hlast
      simp only [hb0, hbl, Bool.false_eq_true, if_false, hat (i - 1) (by omega),
        hat i (by omega)]
      have hwr2 : (c.fds.dup2 (env.pipe (i - 1)).rd STDIN_FILENO).get (env.pipe i).wr =
          some (.pipeWrite i) := by
        rw [get_dup2 _ _ _ _ hrd]
        have := hfresh.1 i (by omega)
        have : ¬ (env.pipe i).wr = STDIN_FILENO := by unfold STDIN_FILENO; omega
        simp [this, hwr]
      refine ⟨trivial, _, rfl, ?_, ?_⟩
      · rw [get_dup2 _ _ _ _ hwr2, get_dup2 _ _ _ _ hrd]
        simp [hi0, h01]
      · rw [get_dup2 _ _ _ _ hwr2]
        have : i < p.commands.length - 1 := by omega
        simp [this]

/-- The wiring of the child of stage i < N when the descriptors that `pipe` hands
out are fresh (none is 0 or 1, none is handed out twice) and every `open` the stage
makes succeeds with a descriptor other than 0 and 1: the child does not exit before
its `exec`; its standard input is the input file if i = 0 and one is given, what
the shell had as standard input if i = 0 and none is given, and the read end of
pipe i-1 if i > 0; its standard output is the write end of pipe i if i < N-1, the
output file if i = N-1 and one is given, and what the shell had as standard output
if i = N-1 and none is given; and both ends of every pipe are closed. -/
theorem createJobChild_wiring (env : Env) (os : ChildEnv) (s : Shell) (p : pipeline) (i : Nat)
    (first_child : Int)
    (hi : i < p.commands.length)
    (hfresh : PipesFresh env (p.commands.length - 1))
    (hin : i = 0 → p.input ≠ "" → ∃ fd, os.sys_open p.input .O_RDONLY = .ok fd ∧ 1 < fd)
    (hout : i = p.commands.length - 1 → p.output ≠ "" →
      ∃ fd, os.sys_open p.output .O_CREAT_TRUNC_WRONLY = .ok fd ∧ 1 < fd) :
    (createPipes env (p.commands.length - 1) s).1.length = p.commands.length - 1 ∧
    (createJobChild os p (createPipes env (p.commands.length - 1) s).1 i first_child
        (createPipes env (p.commands.length - 1) s).2.fds).2 ≠ .exitInRedirect ∧
    (createJobChild os p (createPipes env (p.commands.length - 1) s).1 i first_child
        (createPipes env (p.commands.length - 1) s).2.fds).1.fds.get STDIN_FILENO =
      (if i = 0 then
        (if p.input = "" then s.fds.get STDIN_FILENO else some (.file p.input .O_RDONLY))
      else some (.pipeRead (i - 1))) ∧
    (createJobChild os p (createPipes env (p.commands.length - 1) s).1 i first_child
        (createPipes env (p.commands.length - 1) s).2.fds).1.fds.get STDOUT_FILENO =
      (if i < p.commands.length - 1 then some (.pipeWrite i)
      else if p.output = "" then s.fds.get STDOUT_FILENO
      else some (.file p.output .O_CREAT_TRUNC_WRONLY)) ∧
    (∀ q ∈ (createPipes env (p.commands.length - 1) s).1,
      (createJobChild os p (createPipes env (p.commands.length - 1) s).1 i first_child
          (createPipes env (p.commands.length - 1) s).2.fds).1.fds.get q.rd = none ∧
      (createJobChild os p (createPipes env (p.commands.length - 1) s).1 i first_child
          (createPipes env (p.commands.length - 1) s).2.fds).1.fds.get q.wr = none) := by
  obtain ⟨hw, t, ht, ht0, ht1⟩ := wireChild_ok env os s p i
    { fds := (createPipes env (p.commands.length - 1) s).2.fds, out := [], err := [], pgid := none }
    rfl hi hfresh hin hout
  obtain ⟨hpipes, _, _⟩ := createPipes_fds env (p.commands.length - 1) s hfresh
  have hfds : (createJobChild os p (createPipes env (p.commands.length - 1) s).1 i first_child
      (createPipes env (p.commands.length - 1) s).2.fds).1.fds =
      closeAll (createPipes env (p.commands.length - 1) s).1 t := by
    unfold createJobChild
    simp only [hw, Bool.false_eq_true, if_false]
    rw [← ht]
    cases os.setpgid (if i == 0 then os.getpid else first_child) <;>
      cases p.commands.get? i <;> simp only [] <;> (try split) <;> rfl
  have hend : (createJobChild os p (createPipes env (p.commands.length - 1) s).1 i first_child
      (createPipes env (p.commands.length - 1) s).2.fds).2 ≠ .exitInRedirect := by
    unfold createJobChild
    simp only [hw, Bool.false_eq_true, if_false]
    cases p.commands.get? i with
    | none => simp
    | some cmd =>
      simp only
      split <;> simp
  have hstd : ∀ x, x ≤ 1 →
      ((createPipes env (p.commands.length - 1) s).1.any (fun q => q.rd == x || q.wr == x)) = false := by
    intro x hx
    rw [hpipes]
    simp only [List.any_eq_false, List.mem_map, List.mem_range, Bool.or_eq_true, beq_iff_eq,
      not_or, forall_exists_index, and_imp]
    intro q j hj hq
    subst hq
    have := hfresh.1 j hj
    omega
  refine ⟨by rw [hpipes]; simp, hend, ?_, ?_, ?_⟩
  · have h := hstd STDIN_FILENO (by decide)
    rw [hfds, get_closeAll, h]
    simpa using ht0
  · have h := hstd STDOUT_FILENO (by decide)
    rw [hfds, get_closeAll, h]
    simpa using ht1
  · intro q hq
    rw [hfds, get_closeAll, get_closeAll]
    have h1 : (createPipes env (p.commands.length - 1) s).1.any
        (fun r => r.rd == q.rd || r.wr == q.rd) = true :=
      List.any_eq_true.2 ⟨q, hq, by simp⟩
    have h2 : (createPipes env (p.commands.length - 1) s).1.any
        (fun r => r.rd == q.wr || r.wr == q.wr) = true :=
      List.any_eq_true.2 ⟨q, hq, by simp⟩
    simp [h1, h2]

/-- The pipes and the descriptor table that `createJob` hands to its children are
those of `createPipes(pipe_len - 1)`, run on a shell with the descriptor table the
shell had on entry. -/
theorem createJobSpawn_pipes (env : Env) (s : Shell) (p : pipeline) :
    ∃ s2 : Shell, s2.fds = s.fds ∧
      (createJobSpawn env s p).pipes = (createPipes env (p.commands.length - 1) s2).1 ∧
      (createJobSpawn env s p).forkFds = (createPipes env (p.commands.length - 1) s2).2.fds := by
  by_cases hb : p.background = true
  · exact ⟨{ s with joblist := (s.joblist.addJob .kBackground).1 }, rfl,
      by simp [createJobSpawn, hb], by simp [createJobSpawn, hb]⟩
  · have hb2 : p.background = false := by simpa using hb
    exact ⟨({ s with joblist := (STSHJobList.setState (s.joblist.addJob .kBackground).1
        (s.joblist.addJob .kBackground).2 .kForeground) }).log (.sigprocmask .SIG_BLOCK), rfl,
      by simp [createJobSpawn, hb2], by simp [createJobSpawn, hb2]⟩

/-- The wiring of the children as `createJob` forks them, under the same conditions
as `createJobChild_wiring`: `createJob` allocates exactly N-1 pipes, and the child
of stage i gets the standard input and output described there, with every pipe end
closed. -/
theorem stageChild_wiring (env : Env) (os : ChildEnv) (s : Shell) (p : pipeline) (i : Nat)
    (hi : i < p.commands.length)
    (hfresh : PipesFresh env (p.commands.length - 1))
    (hin : i = 0 → p.input ≠ "" → ∃ fd, os.sys_open p.input .O_RDONLY = .ok fd ∧ 1 < fd)
    (hout : i = p.commands.length - 1 → p.output ≠ "" →
      ∃ fd, os.sys_open p.output .O_CREAT_TRUNC_WRONLY = .ok fd ∧ 1 < fd) :
    (createJobSpawn env s p).pipes.length = p.commands.length - 1 ∧
    (stageChild env os s p i).2 ≠ .exitInRedirect ∧
    (stageChild env os s p i).1.fds.get STDIN_FILENO =
      (if i = 0 then
        (if p.input = "" then s.fds.get STDIN_FILENO else some (.file p.input .O_RDONLY))
      else some (.pipeRead (i - 1))) ∧
    (stageChild env os s p i).1.fds.get STDOUT_FILENO =
      (if i < p.commands.length - 1 then some (.pipeWrite i)
      else if p.output = "" then s.fds.get STDOUT_FILENO
      else some (.file p.output .O_CREAT_TRUNC_WRONLY)) ∧
    (∀ q ∈ (createJobSpawn env s p).pipes,
      (stageChild env os s p i).1.fds.get q.rd = none ∧
      (stageChild env os s p i).1.fds.get q.wr = none) := by
  obtain ⟨s2, hfds, hpipes, hfork⟩ := createJobSpawn_pipes env s p
  have h := createJobChild_wiring env os s2 p i (createJobSpawn env s p).first_child hi hfresh
    hin hout
  unfold stageChild
  rw [hpipes, hfork, ← hfds]
  exact h

/-! ## `redirect` when `open` hands out descriptor 0 or 1 -/

/-- C7 fails on the code: the shell runs with descriptor 1 closed and is given
`cat > out`.  The `open` of `out` succeeds and hands out the lowest free
descriptor, which is 1; `redirect` then calls `dup2(1, 1)` and `close(1)`, and the
child reaches `execvp` with its standard output closed instead of the file `out`. -/
theorem redirect_closes_the_stream_it_opened :
    (createJobSpawn env0 shellStdoutClosed catToOut).pipes = [] ∧
    (createJobSpawn env0 shellStdoutClosed catToOut).forkFds =
      [(0, .inherited 0), (2, .inherited 2)] ∧
    osOpenGivesOne.sys_open "out" .O_CREAT_TRUNC_WRONLY = .ok 1 ∧
    (stageChild env0 osOpenGivesOne shellStdoutClosed catToOut 0).2 = .exec ["cat"] ∧
    (stageChild env0 osOpenGivesOne shellStdoutClosed catToOut 0).1.fds.get STDOUT_FILENO = none ∧
    (stageChild env0 osOpenGivesOne shellStdoutClosed catToOut 0).1.fds.get STDOUT_FILENO ≠
      some (.file "out" .O_CREAT_TRUNC_WRONLY) := by
  decide

end Stsh
